import Mathlib

/-!
Verification of the TradingLab market-economics and validation-decision
modules, shallowly embedded from the Python sources.

Numeric values (Python floats used only through `+ - * /`, `abs` and
comparisons) are modelled as rationals `ℚ`; Python `Optional[float]` becomes
`Option ℚ`; Python truthiness fallbacks such as `x or y` on floats are made
explicit (`none` or `0` falls through to `y`).
-/

namespace TradingLab

/-- Asset classes, from the `Literal["forex", "crypto", "stock", "futures"]`
annotation in `market_spec.py`. -/
inductive AssetClass where
  | forex
  | crypto
  | stock
  | futures
deriving DecidableEq, Repr

/-- The `Literal["spot", "futures"]` market type. -/
inductive MarketType where
  | spot
  | futures
deriving DecidableEq, Repr

/-- The `Literal["isolated", "cross"]` margin mode. -/
inductive MarginMode where
  | isolated
  | cross
deriving DecidableEq, Repr

/-- Python `x or default` on an optional float: `None` and `0.0` are falsy
and fall through to the default. -/
def pyOr (x : Option ℚ) (default : ℚ) : ℚ :=
  match x with
  | some c => if c = 0 then default else c
  | none => default

/-- The `MarketSpec` dataclass from `engine/market_spec.py` (fields and
defaults as in the source). -/
structure MarketSpec where
  symbol : String
  exchange : String
  asset_class : AssetClass
  market_type : MarketType := MarketType.spot
  leverage : ℚ := 1
  contract_size : Option ℚ := none
  pip_value : Option ℚ := none
  min_trade_size : ℚ := 1/100
  price_precision : ℕ := 5
  quantity_precision : ℕ := 2
  commission_rate : ℚ := 4/10000
  commission_per_contract : Option ℚ := none
  slippage_ticks : ℚ := 0
  initial_margin_per_contract : Option ℚ := none
  intraday_margin_per_contract : Option ℚ := none
  maintenance_margin_rate : Option ℚ := none
  margin_mode : MarginMode := MarginMode.cross
deriving Repr

namespace MarketSpec

/-- Embedding of `MarketSpec.calculate_margin`: fixed per-contract margin for traditional
futures (day-trading margin when `is_intraday` and one is configured,
otherwise the initial margin), and notional / leverage in every other case. -/
def calculate_margin (s : MarketSpec) (entry_price quantity : ℚ)
    (is_intraday : Bool := true) : ℚ :=
  if s.asset_class = AssetClass.futures then
    match s.initial_margin_per_contract with
    | some initial_margin =>
      match is_intraday, s.intraday_margin_per_contract with
      | true, some intraday_margin => |quantity| * intraday_margin
      | _, _ => |quantity| * initial_margin
    | none =>
      entry_price * |quantity| / s.leverage
  else
    entry_price * |quantity| / s.leverage

/-- Embedding of `MarketSpec.calculate_maintenance_margin`.  The Python
`price = current_price or entry_price` uses float truthiness: `None` and
`0.0` both fall back to the entry price. -/
def calculate_maintenance_margin (s : MarketSpec) (entry_price quantity : ℚ)
    (current_price : Option ℚ := none) : ℚ :=
  let price := pyOr current_price entry_price
  let notional_value := price * |quantity|
  if s.asset_class = AssetClass.futures then
    match s.maintenance_margin_rate with
    | some rate => notional_value * rate
    | none =>
      match s.initial_margin_per_contract with
      | some initial_margin => |quantity| * initial_margin
      | none => s.calculate_margin entry_price quantity
  else
    s.calculate_margin entry_price quantity

/-- Embedding of `MarketSpec.calculate_unrealized_pnl`: price change times quantity, with
the sign flipped for any direction other than `'long'`. -/
def calculate_unrealized_pnl (s : MarketSpec)
    (entry_price current_price quantity : ℚ) (direction : String) : ℚ :=
  if direction = "long" then
    (current_price - entry_price) * quantity
  else
    (entry_price - current_price) * quantity

/-- Embedding of `MarketSpec.calculate_realized_pnl`: delegates to
`calculate_unrealized_pnl` with the exit price as the current price. -/
def calculate_realized_pnl (s : MarketSpec)
    (entry_price exit_price quantity : ℚ) (direction : String) : ℚ :=
  s.calculate_unrealized_pnl entry_price exit_price quantity direction

end MarketSpec

/-- The `Broker` dataclass from `engine/market_spec.py`. -/
structure Broker where
  market_spec : MarketSpec
  margin_call_level : ℚ := 1
deriving Repr

namespace Broker

/-- Embedding of `Broker.calculate_margin_required` (calls `calculate_margin` with its
default `is_intraday=True`). -/
def calculate_margin_required (b : Broker) (entry_price quantity : ℚ) : ℚ :=
  b.market_spec.calculate_margin entry_price quantity

/-- Embedding of `Broker.can_afford_position`: returns `(can_afford, required_cash)` where
`required_cash = margin + commission`.  The commission-rate argument goes
through the truthiness fallback `commission_rate or market_spec.commission_rate`. -/
def can_afford_position (b : Broker) (entry_price quantity available_cash : ℚ)
    (commission_rate : Option ℚ := none) : Bool × ℚ :=
  let margin := b.calculate_margin_required entry_price quantity
  let rate := pyOr commission_rate b.market_spec.commission_rate
  let commission := entry_price * quantity * rate
  let required_cash := margin + commission
  (decide (required_cash ≤ available_cash), required_cash)

/-- Embedding of `Broker.check_margin_call`: false when no margin is used, true when
equity is non-positive, otherwise true iff the margin level
`equity / margin_used` is below `margin_call_level`. -/
def check_margin_call (b : Broker) (equity margin_used : ℚ) : Bool :=
  if margin_used ≤ 0 then
    false
  else if equity ≤ 0 then
    true
  else
    decide (equity / margin_used < b.margin_call_level)

/-- The `max_affordable_qty` local of `Broker.adjust_quantity_for_cash`:
`available_cash / (entry_price * (1/leverage + commission_rate))`. -/
def max_affordable_qty (b : Broker) (entry_price available_cash rate : ℚ) : ℚ :=
  available_cash / (entry_price * (1 / b.market_spec.leverage + rate))

/-- Embedding of `Broker.adjust_quantity_for_cash`: caps the desired quantity at the
maximum affordable quantity; the commission-rate argument goes through the
same truthiness fallback as `can_afford_position`. -/
def adjust_quantity_for_cash (b : Broker)
    (entry_price desired_quantity available_cash : ℚ)
    (commission_rate : Option ℚ := none) : ℚ :=
  let rate := pyOr commission_rate b.market_spec.commission_rate
  min desired_quantity (b.max_affordable_qty entry_price available_cash rate)

end Broker

end TradingLab

namespace TradingLab

/-- A concrete sample market spec used by witness theorems. -/
def sampleSpec : MarketSpec :=
  { symbol := "BTCUSDT"
    exchange := "binance"
    asset_class := AssetClass.crypto
    leverage := 10
    commission_rate := 4/10000 }

/-- C1: unrealized P&L is `(current − entry) × qty` for `'long'` and
`(entry − current) × qty` for any other direction; it is invariant under any
change of leverage alone (in particular leverage 1 vs 50); realized P&L is
unrealized P&L with the exit price substituted for the current price. -/
theorem calculate_unrealized_pnl_spec (s : MarketSpec)
    (entry_price current_price exit_price quantity l₁ l₂ : ℚ)
    (direction : String) :
    (direction = "long" →
      s.calculate_unrealized_pnl entry_price current_price quantity direction
        = (current_price - entry_price) * quantity) ∧
    (direction ≠ "long" →
      s.calculate_unrealized_pnl entry_price current_price quantity direction
        = (entry_price - current_price) * quantity) ∧
    ({ s with leverage := l₁ }.calculate_unrealized_pnl
        entry_price current_price quantity direction
      = { s with leverage := l₂ }.calculate_unrealized_pnl
        entry_price current_price quantity direction) ∧
    ({ s with leverage := 1 }.calculate_unrealized_pnl
        entry_price current_price quantity direction
      = { s with leverage := 50 }.calculate_unrealized_pnl
        entry_price current_price quantity direction) ∧
    (s.calculate_realized_pnl entry_price exit_price quantity direction
      = s.calculate_unrealized_pnl entry_price exit_price quantity direction) := by
  refine ⟨fun h => ?_, fun h => ?_, rfl, rfl, rfl⟩
  · simp [MarketSpec.calculate_unrealized_pnl, h]
  · simp [MarketSpec.calculate_unrealized_pnl, h]

/-- Witness for C1 at a concrete long and a concrete short position. -/
theorem calculate_unrealized_pnl_spec_witness :
    sampleSpec.calculate_unrealized_pnl 100 110 2 "long" = 20 ∧
    sampleSpec.calculate_unrealized_pnl 100 110 2 "short" = -20 := by
  have hl := calculate_unrealized_pnl_spec sampleSpec 100 110 0 2 1 50 "long"
  have hs := calculate_unrealized_pnl_spec sampleSpec 100 110 0 2 1 50 "short"
  exact ⟨(hl.1 rfl).trans (by norm_num),
        (hs.2.1 (by decide)).trans (by norm_num)⟩

/-- A broker over the sample spec with margin-call level 1 (the dataclass
default), used by the concrete parts of C5. -/
def sampleBroker : Broker :=
  { market_spec := sampleSpec, margin_call_level := 1 }

/-- C5: `check_margin_call` is false when `margin_used ≤ 0`; otherwise true
whenever `equity ≤ 0` regardless of the level; otherwise true iff
`equity / margin_used < margin_call_level`.  In particular, with level 1,
equity 0 against margin 100 triggers and equity 150 against margin 100 does
not. -/
theorem check_margin_call_spec (b : Broker) (equity margin_used : ℚ) :
    (margin_used ≤ 0 → b.check_margin_call equity margin_used = false) ∧
    (0 < margin_used → equity ≤ 0 → b.check_margin_call equity margin_used = true) ∧
    (0 < margin_used → 0 < equity →
      (b.check_margin_call equity margin_used = true ↔
        equity / margin_used < b.margin_call_level)) ∧
    sampleBroker.check_margin_call 0 100 = true ∧
    sampleBroker.check_margin_call 150 100 = false := by
  refine ⟨fun h => ?_, fun hm he => ?_, fun hm he => ?_,
    by norm_num [Broker.check_margin_call],
    by norm_num [Broker.check_margin_call, sampleBroker]⟩
  · simp [Broker.check_margin_call, h]
  · simp [Broker.check_margin_call, not_le.mpr hm, he]
  · simp [Broker.check_margin_call, not_le.mpr hm, not_le.mpr he]

/-- Witness for C5: a margin call triggers when the margin level drops
below 1 and is suppressed when no margin is in use. -/
theorem check_margin_call_spec_witness :
    sampleBroker.check_margin_call 50 100 = true ∧
    sampleBroker.check_margin_call 50 0 = false := by
  have h := check_margin_call_spec sampleBroker 50 100
  have h0 := check_margin_call_spec sampleBroker 50 0
  exact ⟨(h.2.2.1 (by norm_num) (by norm_num)).mpr (by norm_num [sampleBroker]),
        h0.1 le_rfl⟩

/-- C6: `calculate_margin` uses the fixed per-contract margins for futures
when they are configured (the intraday one when `is_intraday`, the initial
one otherwise), and `(entry_price × |quantity|) / leverage` whenever the
asset class is not futures or no per-contract margin is configured
(Binance-style futures and all non-futures asset classes). -/
theorem calculate_margin_spec (s : MarketSpec)
    (entry_price quantity initial_margin intraday_margin : ℚ)
    (is_intraday : Bool) :
    (s.asset_class = AssetClass.futures →
      s.initial_margin_per_contract = some initial_margin →
      s.intraday_margin_per_contract = some intraday_margin →
      is_intraday = true →
      s.calculate_margin entry_price quantity is_intraday
        = |quantity| * intraday_margin) ∧
    (s.asset_class = AssetClass.futures →
      s.initial_margin_per_contract = some initial_margin →
      is_intraday = false →
      s.calculate_margin entry_price quantity is_intraday
        = |quantity| * initial_margin) ∧
    (s.asset_class ≠ AssetClass.futures ∨ s.initial_margin_per_contract = none →
      s.calculate_margin entry_price quantity is_intraday
        = entry_price * |quantity| / s.leverage) := by
  refine ⟨fun hf hi hd ht => ?_, fun hf hi ht => ?_, fun h => ?_⟩
  · simp [MarketSpec.calculate_margin, hf, hi, hd, ht]
  · simp [MarketSpec.calculate_margin, hf, hi, ht]
  · rcases h with h | h
    · simp [MarketSpec.calculate_margin, h]
    · by_cases hf : s.asset_class = AssetClass.futures <;>
        simp [MarketSpec.calculate_margin, hf, h]

/-- A CME-style futures spec with fixed per-contract margins, used by
witness theorems. -/
def sampleFuturesSpec : MarketSpec :=
  { symbol := "MES"
    exchange := "cme"
    asset_class := AssetClass.futures
    market_type := MarketType.futures
    leverage := 1
    initial_margin_per_contract := some 2455
    intraday_margin_per_contract := some 50 }

/-- Witness for C6: per-contract margins for the futures spec, and the
leverage formula for the crypto spec. -/
theorem calculate_margin_spec_witness :
    sampleFuturesSpec.calculate_margin 5000 3 true = 150 ∧
    sampleFuturesSpec.calculate_margin 5000 3 false = 7365 ∧
    sampleSpec.calculate_margin 5000 3 true = 1500 := by
  have h := calculate_margin_spec sampleFuturesSpec 5000 3 2455 50 true
  have h' := calculate_margin_spec sampleFuturesSpec 5000 3 2455 50 false
  have hc := calculate_margin_spec sampleSpec 5000 3 0 0 true
  refine ⟨(h.1 rfl rfl rfl rfl).trans (by norm_num),
         (h'.2.1 rfl rfl rfl).trans (by norm_num),
         (hc.2.2 (Or.inl (by decide))).trans ?_⟩
  norm_num [sampleSpec]

/-- A non-futures (crypto spot) spec that nevertheless has a maintenance
margin rate configured: C7's counterexample input. -/
def rateOnSpotSpec : MarketSpec :=
  { symbol := "BTCUSDT"
    exchange := "binance"
    asset_class := AssetClass.crypto
    leverage := 1
    maintenance_margin_rate := some (1/200) }

/-- C7 counterexample: a maintenance-margin rate is configured, yet
`calculate_maintenance_margin` returns the initial-margin fallback 100
instead of notional × rate = 1/2, because the rate is only consulted for
the futures asset class. -/
theorem calculate_maintenance_margin_counterexample :
    rateOnSpotSpec.maintenance_margin_rate = some (1/200) ∧
    rateOnSpotSpec.calculate_maintenance_margin 100 1 none = 100 ∧
    (100 * |(1 : ℚ)|) * (1/200) = 1/2 ∧
    rateOnSpotSpec.calculate_maintenance_margin 100 1 none ≠
      (100 * |(1 : ℚ)|) * (1/200) := by
  have hval : rateOnSpotSpec.calculate_maintenance_margin 100 1 none = 100 := by
    norm_num [MarketSpec.calculate_maintenance_margin, MarketSpec.calculate_margin,
      rateOnSpotSpec, pyOr]
    decide
  refine ⟨rfl, hval, by norm_num, ?_⟩
  rw [hval]
  norm_num

/-- C7 amended: the maintenance-margin rate applies only to the futures
asset class, where the result is `(current_price or entry_price) × |q| × rate`;
futures without a rate but with a per-contract initial margin fall back to
`|q| × initial_margin_per_contract`; all remaining cases (futures with
neither configured, and every non-futures asset class, even with a rate
configured) use the initial-margin formula `entry_price × |q| / leverage`. -/
theorem calculate_maintenance_margin_amended (s : MarketSpec)
    (entry_price quantity rate initial_margin : ℚ)
    (current_price : Option ℚ) :
    (s.asset_class = AssetClass.futures →
      s.maintenance_margin_rate = some rate →
      s.calculate_maintenance_margin entry_price quantity current_price
        = pyOr current_price entry_price * |quantity| * rate) ∧
    (s.asset_class = AssetClass.futures →
      s.maintenance_margin_rate = none →
      s.initial_margin_per_contract = some initial_margin →
      s.calculate_maintenance_margin entry_price quantity current_price
        = |quantity| * initial_margin) ∧
    (s.asset_class = AssetClass.futures →
      s.maintenance_margin_rate = none →
      s.initial_margin_per_contract = none →
      s.calculate_maintenance_margin entry_price quantity current_price
        = entry_price * |quantity| / s.leverage) ∧
    (s.asset_class ≠ AssetClass.futures →
      s.calculate_maintenance_margin entry_price quantity current_price
        = entry_price * |quantity| / s.leverage) := by
  refine ⟨fun hf hr => ?_, fun hf hr hi => ?_, fun hf hr hi => ?_, fun hf => ?_⟩
  · simp [MarketSpec.calculate_maintenance_margin, hf, hr]
  · simp [MarketSpec.calculate_maintenance_margin, hf, hr, hi]
  · simp [MarketSpec.calculate_maintenance_margin, MarketSpec.calculate_margin,
      hf, hr, hi]
  · simp [MarketSpec.calculate_maintenance_margin, MarketSpec.calculate_margin, hf]

/-- Witness for C7 amended: a Binance-style futures spec with a rate uses
notional × rate (marked to the current price); the crypto spot spec ignores
its configured rate. -/
theorem calculate_maintenance_margin_amended_witness :
    ({ rateOnSpotSpec with
        asset_class := AssetClass.futures }).calculate_maintenance_margin
        100 2 (some 110) = 11/10 ∧
    rateOnSpotSpec.calculate_maintenance_margin 100 2 (some 110) = 200 := by
  have hf := calculate_maintenance_margin_amended
    { rateOnSpotSpec with asset_class := AssetClass.futures }
    100 2 (1/200) 0 (some 110)
  have hs := calculate_maintenance_margin_amended rateOnSpotSpec
    100 2 (1/200) 0 (some 110)
  refine ⟨(hf.1 rfl rfl).trans (by norm_num [pyOr]), ?_⟩
  refine (hs.2.2.2 (by decide)).trans ?_
  norm_num [rateOnSpotSpec]

/-- C8: with a positive entry price, positive leverage and non-negative
effective commission rate, the maximum affordable quantity of
`adjust_quantity_for_cash` is `cash / (price × (1/leverage + rate))`, it
round-trips exactly over ℚ (margin plus commission at that quantity equals
the available cash), and a desired quantity at or above the bound is
adjusted to exactly the bound. -/
theorem adjust_quantity_for_cash_spec (b : Broker)
    (entry_price desired_quantity available_cash rate : ℚ)
    (commission_rate : Option ℚ)
    (hrate : rate = pyOr commission_rate b.market_spec.commission_rate)
    (hp : 0 < entry_price) (hl : 0 < b.market_spec.leverage) (hr : 0 ≤ rate) :
    (b.max_affordable_qty entry_price available_cash rate
      = available_cash / (entry_price * (1 / b.market_spec.leverage + rate))) ∧
    (b.max_affordable_qty entry_price available_cash rate * entry_price
        / b.market_spec.leverage
      + entry_price * b.max_affordable_qty entry_price available_cash rate * rate
      = available_cash) ∧
    (b.max_affordable_qty entry_price available_cash rate ≤ desired_quantity →
      b.adjust_quantity_for_cash entry_price desired_quantity available_cash
          commission_rate
        = b.max_affordable_qty entry_price available_cash rate) := by
  have hp' : entry_price ≠ 0 := ne_of_gt hp
  have hl' : b.market_spec.leverage ≠ 0 := ne_of_gt hl
  have hsum : 1 / b.market_spec.leverage + rate ≠ 0 :=
    ne_of_gt (add_pos_of_pos_of_nonneg (by positivity) hr)
  refine ⟨rfl, ?_, fun hle => ?_⟩
  · rw [Broker.max_affordable_qty]
    field_simp
    ring
  · rw [Broker.adjust_quantity_for_cash, ← hrate]
    exact min_eq_right hle

/-- Witness for C8 on the sample broker: entry price 100, cash 1000,
default commission rate 0.0004, leverage 10. -/
theorem adjust_quantity_for_cash_spec_witness :
    sampleBroker.max_affordable_qty 100 1000 (4/10000) * 100
        / sampleBroker.market_spec.leverage
      + 100 * sampleBroker.max_affordable_qty 100 1000 (4/10000) * (4/10000)
      = 1000 ∧
    sampleBroker.adjust_quantity_for_cash 100 500 1000 none
      = sampleBroker.max_affordable_qty 100 1000 (4/10000) := by
  have h := adjust_quantity_for_cash_spec sampleBroker 100 500 1000 (4/10000)
    none rfl (by norm_num) (by norm_num [sampleBroker, sampleSpec]) (by norm_num)
  refine ⟨h.2.1, h.2.2 ?_⟩
  norm_num [Broker.max_affordable_qty, sampleBroker, sampleSpec]

/-- C10: passing an explicit commission rate of `0.0` to
`can_afford_position` or `adjust_quantity_for_cash` is swallowed by the
truthiness fallback `commission_rate or market_spec.commission_rate`: the
result equals the result with the argument omitted (so the market spec's
rate is charged), and for a spec with a positive commission rate (and a
real position) it differs from the zero-commission result. -/
theorem commission_rate_zero_fallback_spec (b : Broker)
    (entry_price quantity desired_quantity available_cash : ℚ) :
    (b.can_afford_position entry_price quantity available_cash (some 0)
      = b.can_afford_position entry_price quantity available_cash none) ∧
    (b.adjust_quantity_for_cash entry_price desired_quantity available_cash
        (some 0)
      = b.adjust_quantity_for_cash entry_price desired_quantity available_cash
        none) ∧
    ((b.can_afford_position entry_price quantity available_cash (some 0)).2
      = b.calculate_margin_required entry_price quantity
        + entry_price * quantity * b.market_spec.commission_rate) ∧
    (0 < b.market_spec.commission_rate → 0 < entry_price → 0 < quantity →
      (b.can_afford_position entry_price quantity available_cash (some 0)).2
        ≠ b.calculate_margin_required entry_price quantity) := by
  refine ⟨by simp [Broker.can_afford_position, pyOr],
         by simp [Broker.adjust_quantity_for_cash, pyOr],
         by simp [Broker.can_afford_position, pyOr],
         fun hc hp hq => ?_⟩
  have hx : 0 < entry_price * quantity * b.market_spec.commission_rate := by
    positivity
  simp only [Broker.can_afford_position, pyOr]
  intro h
  simp at h
  rcases h with (h | h) | h
  exacts [hp.ne' h, hq.ne' h, hc.ne' h]

/-- Witness for C10: explicit rate 0.0 on the sample broker charges the
spec's 0.04% commission, matching the omitted-argument call and exceeding
the pure margin. -/
theorem commission_rate_zero_fallback_spec_witness :
    sampleBroker.adjust_quantity_for_cash 100 5 1000 (some 0)
      = sampleBroker.adjust_quantity_for_cash 100 5 1000 none ∧
    (sampleBroker.can_afford_position 100 2 1000 (some 0)).2
      ≠ sampleBroker.calculate_margin_required 100 2 := by
  have h := commission_rate_zero_fallback_spec sampleBroker 100 2 5 1000
  exact ⟨h.2.1, h.2.2.2 (by norm_num [sampleBroker, sampleSpec])
    (by norm_num) (by norm_num)⟩

/-! ## Training validator (`validation/training_validator.py`) -/

/-- Keys of the `criteria_checks` dictionaries built by
`_check_backtest_quality`, `_check_monte_carlo_suite_conditional` and
`_check_sensitivity`; the per-parameter sensitivity key carries the
parameter name from the Python `f-string` key `sensitivity_{param}_cv`. -/
inductive CheckName where
  | min_profit_factor
  | min_sharpe
  | min_trades
  | mc_score
  | mc_percentile
  | mc_individual_tests
  | sensitivity_cv
  | sensitivity_param_cv (param_name : String)
deriving DecidableEq, Repr

/-- The fields of `TrainingValidationCriteria` read by the validator. -/
structure TrainingValidationCriteria where
  training_min_profit_factor : ℚ
  training_min_sharpe : ℚ
  training_min_trades : ℕ
  min_mc_score : ℚ
  min_mc_percentile : ℚ
  monte_carlo_p_value_max : ℚ
  sensitivity_max_cv : ℚ
deriving Repr

/-- One test's slot of a Monte Carlo suite result: the `skipped` flag and
the values of its `p_values` metric→p mapping. -/
structure MCTestResult where
  skipped : Bool := false
  p_values : List ℚ := []
deriving Repr

/-- Shape of `MonteCarloSuiteResult` as read by the validator: the three per-test
results plus the `combined` dict's `score` and `percentile` entries. -/
structure MonteCarloSuiteResult where
  permutation : MCTestResult
  bootstrap : MCTestResult
  randomized_entry : MCTestResult
  score : ℚ
  percentile : ℚ
deriving Repr

/-- The `suitable` flags of the `test_suitability` mapping (one per test). -/
structure TestSuitabilityMap where
  permutation : Bool
  bootstrap : Bool
  randomized_entry : Bool
deriving DecidableEq, Repr

/-- Python `sum(1 for p in p_values.values() if p <= max_p)`. -/
def passing_metrics (p_values : List ℚ) (max_p : ℚ) : ℕ :=
  List.countP (fun p => decide (p ≤ max_p)) p_values

/-- The per-test pass rule `passing_metrics >= (len(p_values) / 2)`
(Python float division). -/
def majority_rule (p_values : List ℚ) (max_p : ℚ) : Bool :=
  decide ((passing_metrics p_values max_p : ℚ) ≥ (p_values.length : ℚ) / 2)

/-- The `perm_pass` flag of `_check_monte_carlo_suite_conditional`: requires the test
to be suitable, not skipped and to carry a non-empty p-value mapping. -/
def permutation_test_pass (crit : TrainingValidationCriteria)
    (mc : MonteCarloSuiteResult) (suit : TestSuitabilityMap) : Bool :=
  if suit.permutation && !mc.permutation.skipped then
    if mc.permutation.p_values.isEmpty then false
    else majority_rule mc.permutation.p_values crit.monte_carlo_p_value_max
  else false

/-- The `bootstrap_pass` flag of `_check_monte_carlo_suite_conditional`. -/
def bootstrap_test_pass (crit : TrainingValidationCriteria)
    (mc : MonteCarloSuiteResult) (suit : TestSuitabilityMap) : Bool :=
  if suit.bootstrap && !mc.bootstrap.skipped then
    if mc.bootstrap.p_values.isEmpty then false
    else majority_rule mc.bootstrap.p_values crit.monte_carlo_p_value_max
  else false

/-- The `randomized_pass` flag of `_check_monte_carlo_suite_conditional`: computed
without any suitability or skip guard (the randomized-entry test always
runs). -/
def randomized_test_pass (crit : TrainingValidationCriteria)
    (mc : MonteCarloSuiteResult) : Bool :=
  if mc.randomized_entry.p_values.isEmpty then false
  else majority_rule mc.randomized_entry.p_values crit.monte_carlo_p_value_max

/-- Python `len(suitable_tests)`. -/
def n_suitable (suit : TestSuitabilityMap) : ℕ :=
  (if suit.permutation then 1 else 0) + (if suit.bootstrap then 1 else 0)
    + (if suit.randomized_entry then 1 else 0)

/-- The `mc_individual_tests` dispatch of
`_check_monte_carlo_suite_conditional` as a function of the three
suitability flags and the three per-test pass flags. -/
def mc_individual_rule (ps bs rs pp bp rp : Bool) : Bool :=
  let n := (if ps then 1 else 0) + (if bs then 1 else 0) + (if rs then 1 else 0)
  if n = 3 then
    decide (((if pp then 1 else 0) + (if bp then 1 else 0)
      + (if rp then 1 else 0) : ℕ) ≥ 2)
  else if n = 2 then
    let suitable_passes : List Bool :=
      (if ps then [pp] else []) ++ (if bs then [bp] else [])
        ++ (if rs then [rp] else [])
    decide (suitable_passes.countP id ≥ 1)
  else if n = 1 then
    if ps then pp
    else if bs then bp
    else rp
  else
    false

/-- The `checks['mc_individual_tests']` value. -/
def mc_individual_tests (crit : TrainingValidationCriteria)
    (mc : MonteCarloSuiteResult) (suit : TestSuitabilityMap) : Bool :=
  mc_individual_rule suit.permutation suit.bootstrap suit.randomized_entry
    (permutation_test_pass crit mc suit) (bootstrap_test_pass crit mc suit)
    (randomized_test_pass crit mc)

/-- Embedding of `_check_monte_carlo_suite_conditional`: the `checks` dict in insertion
order. -/
def check_monte_carlo_suite_conditional (crit : TrainingValidationCriteria)
    (mc : MonteCarloSuiteResult) (suit : TestSuitabilityMap) :
    List (CheckName × Bool) :=
  [(CheckName.mc_score, decide (mc.score ≥ crit.min_mc_score)),
   (CheckName.mc_percentile, decide (mc.percentile ≥ crit.min_mc_percentile)),
   (CheckName.mc_individual_tests, mc_individual_tests crit mc suit)]

/-- Embedding of `_check_backtest_quality`: the quality-checks dict in insertion order. -/
def check_backtest_quality (crit : TrainingValidationCriteria)
    (profit_factor sharpe : ℚ) (total_trades : ℕ) : List (CheckName × Bool) :=
  [(CheckName.min_profit_factor,
      decide (profit_factor ≥ crit.training_min_profit_factor)),
   (CheckName.min_sharpe, decide (sharpe ≥ crit.training_min_sharpe)),
   (CheckName.min_trades, decide (total_trades ≥ crit.training_min_trades))]

/-- Embedding of `_check_sensitivity` applied to a non-empty analysis: one
`sensitivity_{param}_cv` entry per parameter followed by the overall
`sensitivity_cv` entry. -/
def check_sensitivity (crit : TrainingValidationCriteria)
    (sensitivity_analysis : List (String × ℚ)) : List (CheckName × Bool) :=
  sensitivity_analysis.map (fun pa =>
    (CheckName.sensitivity_param_cv pa.1, decide (pa.2 ≤ crit.sensitivity_max_cv)))
  ++ [(CheckName.sensitivity_cv,
    sensitivity_analysis.all (fun pa => decide (pa.2 ≤ crit.sensitivity_max_cv)))]

/-- Python `dict.get(key, default)` over a dict built by insertion order
(later bindings override earlier ones, as in `{**a, **b, **c}` merges). -/
def dict_get (d : List (CheckName × Bool)) (key : CheckName)
    (default : Bool) : Bool :=
  (d.foldl (fun acc kv => if kv.1 = key then some kv.2 else acc)
    (none : Option Bool)).getD default

/-- The pass/fail aggregation of `TrainingValidator.validate` (lines
165-178): merge the three check dicts, read the three Monte Carlo outcomes
back out of the merge, take `quality_pass` as the conjunction of the
quality dict's values, and combine.  `sensitivity_analysis = none` models a
run where sensitivity was not requested. -/
def training_validation_passed (crit : TrainingValidationCriteria)
    (profit_factor sharpe : ℚ) (total_trades : ℕ)
    (mc : MonteCarloSuiteResult) (suit : TestSuitabilityMap)
    (sensitivity_analysis : Option (List (String × ℚ))) : Bool :=
  let quality_checks := check_backtest_quality crit profit_factor sharpe total_trades
  let mc_checks := check_monte_carlo_suite_conditional crit mc suit
  let sensitivity_checks := match sensitivity_analysis with
    | none => []
    | some a => check_sensitivity crit a
  let all_checks := quality_checks ++ mc_checks ++ sensitivity_checks
  let mc_individual_tests_pass := dict_get all_checks CheckName.mc_individual_tests false
  let mc_score_pass := dict_get all_checks CheckName.mc_score false
  let mc_percentile_pass := dict_get all_checks CheckName.mc_percentile false
  let quality_pass := quality_checks.all (fun kv => kv.2)
  quality_pass && (mc_score_pass && mc_percentile_pass) && mc_individual_tests_pass

/-- The strict-majority rule as the spec states it ("strictly more than
half, ties round down to not-majority"), modelled from the spec's words for
comparison with the source's `majority_rule`. -/
def strict_majority_spec (p_values : List ℚ) (max_p : ℚ) : Bool :=
  decide (2 * passing_metrics p_values max_p > p_values.length)

/-- Sample thresholds (the shapes of the defaults; the claims hold for any
criteria, these are only used at witness inputs). -/
def sampleCriteria : TrainingValidationCriteria :=
  { training_min_profit_factor := 13/10
    training_min_sharpe := 1/2
    training_min_trades := 30
    min_mc_score := 70
    min_mc_percentile := 95
    monte_carlo_p_value_max := 5/100
    sensitivity_max_cv := 3/10 }

/-- All three Monte Carlo tests marked suitable. -/
def allSuitable : TestSuitabilityMap :=
  { permutation := true, bootstrap := true, randomized_entry := true }

/-- A suite result whose permutation test has an even number of metrics with
exactly half of the p-values under the threshold: the tie case of C2. -/
def evenMetricsSuite : MonteCarloSuiteResult :=
  { permutation := { skipped := false, p_values := [1/100, 1/2] }
    bootstrap := {}
    randomized_entry := {}
    score := 0
    percentile := 0 }

/-- C2 counterexample: with two metrics and exactly one passing p-value
(a tie, not a strict majority), the source's rule passes the permutation
test while the claimed strictly-more-than-half rule does not. -/
theorem majority_rule_counterexample :
    permutation_test_pass sampleCriteria evenMetricsSuite allSuitable = true ∧
    passing_metrics [1/100, 1/2] (5/100) = 1 ∧
    ([(1 : ℚ)/100, 1/2].length : ℕ) = 2 ∧
    strict_majority_spec [1/100, 1/2] (5/100) = false := by
  refine ⟨?_, ?_, rfl, ?_⟩
  · simp [permutation_test_pass, evenMetricsSuite, allSuitable, majority_rule,
      sampleCriteria]
    norm_num [passing_metrics, List.countP_cons]
  · norm_num [passing_metrics, List.countP_cons]
  · simp [strict_majority_spec]
    norm_num [passing_metrics, List.countP_cons]

/-- C2 amended: a non-skipped suitable individual test with a non-empty
p-value mapping passes iff at least half of its per-metric p-values are ≤
the configured max p-value (`2 × passing ≥ total`); an exact half of an
even metric count therefore passes. -/
theorem mc_test_pass_amended (crit : TrainingValidationCriteria)
    (mc : MonteCarloSuiteResult) (suit : TestSuitabilityMap) :
    (suit.permutation = true → mc.permutation.skipped = false →
      mc.permutation.p_values ≠ [] →
      (permutation_test_pass crit mc suit = true ↔
        2 * passing_metrics mc.permutation.p_values crit.monte_carlo_p_value_max
          ≥ mc.permutation.p_values.length)) ∧
    (suit.bootstrap = true → mc.bootstrap.skipped = false →
      mc.bootstrap.p_values ≠ [] →
      (bootstrap_test_pass crit mc suit = true ↔
        2 * passing_metrics mc.bootstrap.p_values crit.monte_carlo_p_value_max
          ≥ mc.bootstrap.p_values.length)) ∧
    (mc.randomized_entry.p_values ≠ [] →
      (randomized_test_pass crit mc = true ↔
        2 * passing_metrics mc.randomized_entry.p_values
            crit.monte_carlo_p_value_max
          ≥ mc.randomized_entry.p_values.length)) := by
  have key : ∀ (l : List ℚ) (m : ℚ), majority_rule l m = true ↔
      2 * passing_metrics l m ≥ l.length := by
    intro l m
    rw [majority_rule, decide_eq_true_iff, ge_iff_le,
      div_le_iff₀ (by norm_num : (0 : ℚ) < 2), ge_iff_le,
      ← Nat.cast_le (α := ℚ)]
    push_cast
    constructor <;> intro h <;> linarith
  refine ⟨fun hs hk hne => ?_, fun hs hk hne => ?_, fun hne => ?_⟩
  · simp [permutation_test_pass, hs, hk, hne, key]
  · simp [bootstrap_test_pass, hs, hk, hne, key]
  · simp [randomized_test_pass, hne, key]

/-- Witness for C2 amended at the tie input: the permutation test passes
and indeed `2 × 1 ≥ 2`. -/
theorem mc_test_pass_amended_witness :
    permutation_test_pass sampleCriteria evenMetricsSuite allSuitable = true := by
  have h := (mc_test_pass_amended sampleCriteria evenMetricsSuite allSuitable).1
    rfl rfl (by simp [evenMetricsSuite])
  refine h.mpr ?_
  norm_num [evenMetricsSuite, sampleCriteria, passing_metrics, List.countP_cons]

/-- Count of tests that passed, suitable or not (the `n = 3` branch sums
exactly these three flags). -/
def total_pass_count (crit : TrainingValidationCriteria)
    (mc : MonteCarloSuiteResult) (suit : TestSuitabilityMap) : ℕ :=
  (if permutation_test_pass crit mc suit then 1 else 0)
    + (if bootstrap_test_pass crit mc suit then 1 else 0)
    + (if randomized_test_pass crit mc then 1 else 0)

/-- Count of tests that are both suitable and passed. -/
def suitable_pass_count (crit : TrainingValidationCriteria)
    (mc : MonteCarloSuiteResult) (suit : TestSuitabilityMap) : ℕ :=
  (if suit.permutation && permutation_test_pass crit mc suit then 1 else 0)
    + (if suit.bootstrap && bootstrap_test_pass crit mc suit then 1 else 0)
    + (if suit.randomized_entry && randomized_test_pass crit mc then 1 else 0)

/-- C3: the `mc_individual_tests` check, characterized by the number of
suitable tests: 3 suitable requires at least 2 passing, 2 suitable requires
at least 1 of the suitable ones passing, 1 suitable requires exactly that
one passing, 0 suitable is false. -/
theorem mc_individual_tests_spec (crit : TrainingValidationCriteria)
    (mc : MonteCarloSuiteResult) (suit : TestSuitabilityMap) :
    (n_suitable suit = 3 →
      (mc_individual_tests crit mc suit = true ↔
        2 ≤ total_pass_count crit mc suit)) ∧
    (n_suitable suit = 2 →
      (mc_individual_tests crit mc suit = true ↔
        1 ≤ suitable_pass_count crit mc suit)) ∧
    (n_suitable suit = 1 →
      (mc_individual_tests crit mc suit = true ↔
        suitable_pass_count crit mc suit = 1)) ∧
    (n_suitable suit = 0 → mc_individual_tests crit mc suit = false) := by
  have aux : ∀ ps bs rs pp bp rp : Bool,
      ((if ps then 1 else 0) + (if bs then 1 else 0)
          + (if rs then 1 else 0) = (3 : ℕ) →
        (mc_individual_rule ps bs rs pp bp rp = true ↔
          2 ≤ (if pp then 1 else 0) + (if bp then 1 else 0)
            + (if rp then 1 else 0))) ∧
      ((if ps then 1 else 0) + (if bs then 1 else 0)
          + (if rs then 1 else 0) = (2 : ℕ) →
        (mc_individual_rule ps bs rs pp bp rp = true ↔
          1 ≤ (if ps && pp then 1 else 0) + (if bs && bp then 1 else 0)
            + (if rs && rp then 1 else 0))) ∧
      ((if ps then 1 else 0) + (if bs then 1 else 0)
          + (if rs then 1 else 0) = (1 : ℕ) →
        (mc_individual_rule ps bs rs pp bp rp = true ↔
          (if ps && pp then 1 else 0) + (if bs && bp then 1 else 0)
            + (if rs && rp then 1 else 0) = 1)) ∧
      ((if ps then 1 else 0) + (if bs then 1 else 0)
          + (if rs then 1 else 0) = (0 : ℕ) →
        mc_individual_rule ps bs rs pp bp rp = false) := by
    decide
  exact aux suit.permutation suit.bootstrap suit.randomized_entry
    (permutation_test_pass crit mc suit) (bootstrap_test_pass crit mc suit)
    (randomized_test_pass crit mc)

/-- Two of three suitable tests passing (permutation and bootstrap pass on
a single low p-value, the randomized-entry mapping is empty). -/
def twoOfThreeSuite : MonteCarloSuiteResult :=
  { permutation := { skipped := false, p_values := [1/100] }
    bootstrap := { skipped := false, p_values := [2/100] }
    randomized_entry := {}
    score := 80
    percentile := 99 }

/-- Witness for C3: with all three tests suitable and two of them passing,
the individual-tests check is true. -/
theorem mc_individual_tests_spec_witness :
    mc_individual_tests sampleCriteria twoOfThreeSuite allSuitable = true := by
  have h := (mc_individual_tests_spec sampleCriteria twoOfThreeSuite
    allSuitable).1 (by decide)
  refine h.mpr ?_
  have hp : permutation_test_pass sampleCriteria twoOfThreeSuite allSuitable
      = true := by
    simp [permutation_test_pass, twoOfThreeSuite, allSuitable, majority_rule,
      passing_metrics, List.countP_cons, sampleCriteria]
    norm_num
  have hb : bootstrap_test_pass sampleCriteria twoOfThreeSuite allSuitable
      = true := by
    simp [bootstrap_test_pass, twoOfThreeSuite, allSuitable, majority_rule,
      passing_metrics, List.countP_cons, sampleCriteria]
    norm_num
  simp [total_pass_count, hp, hb]

/-- Folding the `dict_get` accumulator over entries whose keys all differ
from the looked-up key leaves the accumulator unchanged. -/
lemma dict_get_foldl_no_key (l : List (CheckName × Bool)) (key : CheckName)
    (acc : Option Bool) (h : ∀ p ∈ l, p.1 ≠ key) :
    l.foldl (fun acc kv => if kv.1 = key then some kv.2 else acc) acc = acc := by
  induction l generalizing acc with
  | nil => rfl
  | cons hd tl ih =>
    rw [List.foldl_cons, if_neg (h hd (List.mem_cons_self hd tl))]
    exact ih acc (fun p hp => h p (List.mem_cons_of_mem hd hp))

/-- Every key produced by `check_sensitivity` is a sensitivity key. -/
lemma check_sensitivity_keys (crit : TrainingValidationCriteria)
    (a : List (String × ℚ)) (p : CheckName × Bool)
    (hp : p ∈ check_sensitivity crit a) :
    p.1 = CheckName.sensitivity_cv ∨
      ∃ n, p.1 = CheckName.sensitivity_param_cv n := by
  rw [check_sensitivity, List.mem_append] at hp
  rcases hp with hp | hp
  · rcases List.mem_map.mp hp with ⟨pa, _, rfl⟩
    exact Or.inr ⟨pa.1, rfl⟩
  · rcases List.mem_singleton.mp hp with rfl
    exact Or.inl rfl

/-- The canonical form of the overall decision, shared by both halves of
the C4 theorem. -/
lemma training_validation_passed_eq (crit : TrainingValidationCriteria)
    (profit_factor sharpe : ℚ) (total_trades : ℕ)
    (mc : MonteCarloSuiteResult) (suit : TestSuitabilityMap)
    (sens : Option (List (String × ℚ))) :
    training_validation_passed crit profit_factor sharpe total_trades mc suit
        sens
      = ((decide (profit_factor ≥ crit.training_min_profit_factor)
          && decide (sharpe ≥ crit.training_min_sharpe)
          && decide (total_trades ≥ crit.training_min_trades))
        && (decide (mc.score ≥ crit.min_mc_score)
          && decide (mc.percentile ≥ crit.min_mc_percentile))
        && mc_individual_tests crit mc suit) := by
  have hno : ∀ (a : List (String × ℚ)) (key : CheckName) (acc : Option Bool),
      (key = CheckName.mc_score ∨ key = CheckName.mc_percentile ∨
        key = CheckName.mc_individual_tests) →
      (check_sensitivity crit a).foldl
        (fun acc kv => if kv.1 = key then some kv.2 else acc) acc = acc := by
    intro a key acc hkey
    refine dict_get_foldl_no_key _ _ _ (fun p hp => ?_)
    rcases check_sensitivity_keys crit a p hp with h | ⟨n, h⟩ <;>
      rcases hkey with rfl | rfl | rfl <;> simp [h]
  unfold training_validation_passed
  cases sens with
  | none =>
    simp [dict_get, check_backtest_quality, check_monte_carlo_suite_conditional,
      List.foldl_append, Bool.and_assoc]
  | some a =>
    simp only [dict_get, List.foldl_append,
      hno a CheckName.mc_individual_tests _ (Or.inr (Or.inr rfl)),
      hno a CheckName.mc_score _ (Or.inl rfl),
      hno a CheckName.mc_percentile _ (Or.inr (Or.inl rfl))]
    simp [check_backtest_quality, check_monte_carlo_suite_conditional,
      Bool.and_assoc]

/-- C4: `passed` is exactly the conjunction of the three quality checks,
the Monte Carlo score and percentile checks and the individual-tests check;
the sensitivity checks never change it (any two sensitivity outcomes give
the same `passed`). -/
theorem training_validation_passed_spec (crit : TrainingValidationCriteria)
    (profit_factor sharpe : ℚ) (total_trades : ℕ)
    (mc : MonteCarloSuiteResult) (suit : TestSuitabilityMap)
    (sens sens' : Option (List (String × ℚ))) :
    (training_validation_passed crit profit_factor sharpe total_trades mc suit
        sens
      = ((decide (profit_factor ≥ crit.training_min_profit_factor)
          && decide (sharpe ≥ crit.training_min_sharpe)
          && decide (total_trades ≥ crit.training_min_trades))
        && (decide (mc.score ≥ crit.min_mc_score)
          && decide (mc.percentile ≥ crit.min_mc_percentile))
        && mc_individual_tests crit mc suit)) ∧
    training_validation_passed crit profit_factor sharpe total_trades mc suit
        sens
      = training_validation_passed crit profit_factor sharpe total_trades mc
        suit sens' :=
  ⟨training_validation_passed_eq crit profit_factor sharpe total_trades mc suit
      sens,
   (training_validation_passed_eq crit profit_factor sharpe total_trades mc
      suit sens).trans
    (training_validation_passed_eq crit profit_factor sharpe total_trades mc
      suit sens').symm⟩

/-! ## Live trading engine (`engine/live_trading_engine.py`) -/

/-- The pieces of `LiveTradingEngine` state touched by
`_process_entry_signal`: whether a position for the engine's symbol is
already active, the outstanding stop-order id, and the two statistics
counters. -/
structure LiveEngineState where
  active_position : Bool
  active_stop_order : Option String := none
  trades_executed : ℕ := 0
  trades_skipped : ℕ := 0
deriving DecidableEq, Repr

/-- The execution adapter's behaviour during one `_process_entry_signal`
call: the outcome of `get_account_balance` (its available balance), of
`place_market_order`, and of `place_stop_market_order` (returning a
stop-order id).  `Except.error` models the call raising an exception. -/
structure AdapterBehavior where
  get_account_balance : Except String ℚ
  place_market_order : Except String Unit
  place_stop_market_order : Except String String

/-- Embedding of `LiveTradingEngine._place_stop_loss`: a failing stop order is caught
inside this helper (logged only) and leaves the state unchanged. -/
def place_stop_loss (st : LiveEngineState) (adapter : AdapterBehavior) :
    LiveEngineState :=
  match adapter.place_stop_market_order with
  | Except.ok order_id => { st with active_stop_order := some order_id }
  | Except.error _ => st

/-- Embedding of `LiveTradingEngine._process_entry_signal`.  The Python
`if not quantity or quantity <= 0` guard makes `None`, `0` and negative
quantities return without touching the counters; `get_account_balance` is
called outside any try block so its failure propagates (`Except.error`),
while the try/except around `place_market_order` converts its failure into
a skipped trade; `if stop_price:` skips the stop leg for `None` and `0.0`. -/
def process_entry_signal (spec : MarketSpec) (st : LiveEngineState)
    (adapter : AdapterBehavior) (quantity stop_price : Option ℚ)
    (current_price : ℚ) : Except String LiveEngineState :=
  match quantity with
  | none => Except.ok st
  | some q =>
    if q ≤ 0 then Except.ok st
    else if st.active_position then
      Except.ok { st with trades_skipped := st.trades_skipped + 1 }
    else
      match adapter.get_account_balance with
      | Except.error e => Except.error e
      | Except.ok available_balance =>
        if available_balance ≤ 0 then
          Except.ok { st with trades_skipped := st.trades_skipped + 1 }
        else
          let margin_required := spec.calculate_margin current_price q
          if margin_required > available_balance then
            Except.ok { st with trades_skipped := st.trades_skipped + 1 }
          else
            match adapter.place_market_order with
            | Except.error _ =>
              Except.ok { st with trades_skipped := st.trades_skipped + 1 }
            | Except.ok _ =>
              let entered := { st with trades_executed := st.trades_executed + 1 }
              match stop_price with
              | some sp =>
                if sp = 0 then Except.ok entered
                else Except.ok (place_stop_loss entered adapter)
              | none => Except.ok entered

/-- C9: when the entry signal reaches the order placement and
`place_market_order` raises, the exception is caught (the call returns
normally instead of propagating), `trades_skipped` grows by exactly one and
`trades_executed` is unchanged. -/
theorem process_entry_signal_order_failure_spec (spec : MarketSpec)
    (st : LiveEngineState) (adapter : AdapterBehavior) (q : ℚ)
    (stop_price : Option ℚ) (current_price available_balance : ℚ) (e : String)
    (hq : 0 < q) (hpos : st.active_position = false)
    (hbal : adapter.get_account_balance = Except.ok available_balance)
    (havail : 0 < available_balance)
    (hmargin : spec.calculate_margin current_price q ≤ available_balance)
    (herr : adapter.place_market_order = Except.error e) :
    process_entry_signal spec st adapter (some q) stop_price current_price
      = Except.ok { st with trades_skipped := st.trades_skipped + 1 } ∧
    (LiveEngineState.trades_executed
      { st with trades_skipped := st.trades_skipped + 1 }) = st.trades_executed ∧
    (LiveEngineState.trades_skipped
      { st with trades_skipped := st.trades_skipped + 1 }) = st.trades_skipped + 1 := by
  refine ⟨?_, rfl, rfl⟩
  simp [process_entry_signal, hpos, hbal, herr, not_le.mpr hq,
    not_le.mpr havail, not_lt.mpr hmargin]

/-- Engine statistics before the failing order: three executed trades,
seven skipped. -/
def preEntryState : LiveEngineState :=
  { active_position := false, active_stop_order := none
    trades_executed := 3, trades_skipped := 7 }

/-- An adapter whose balance call succeeds but whose market-order call
raises. -/
def failingOrderAdapter : AdapterBehavior :=
  { get_account_balance := Except.ok 1000
    place_market_order := Except.error "exchange rejected order"
    place_stop_market_order := Except.ok "stop-1" }

/-- Witness for C9: the failed order of a quantity-2 signal at price 100 is
swallowed and counted as one more skipped trade. -/
theorem process_entry_signal_order_failure_spec_witness :
    process_entry_signal sampleSpec preEntryState failingOrderAdapter
        (some 2) none 100
      = Except.ok { preEntryState with
          trades_skipped := preEntryState.trades_skipped + 1 } := by
  refine (process_entry_signal_order_failure_spec sampleSpec preEntryState
    failingOrderAdapter 2 none 100 1000 "exchange rejected order"
    (by norm_num) rfl rfl (by norm_num) ?_ rfl).1
  norm_num [MarketSpec.calculate_margin, sampleSpec]

end TradingLab
